import Mathlib

/-!
A verification development for the micropub-mcp repository: shallow embeddings
of its PKCE utilities, IndieAuth flow client, endpoint discovery, Micropub
client, and the IndieAuth callback orchestrator, with theorems settling the
stated behavioural properties.

Machine integers are modelled as `Nat` with explicit reduction modulo `2 ^ 32`
where the source (or the platform primitive it calls) works on 32-bit words.
Network effects are modelled by passing the relevant HTTP response (or a fetch
oracle) as an explicit argument; fallible code returns `Except`/`Option`.
-/

namespace Spec2Proof

/-! ## JavaScript value helpers

The source is TypeScript; several branches test JS truthiness of strings that
are either absent (`undefined`/`null`) or present.  For a string value the only
falsy case is the empty string, so an `Option String` is truthy exactly when it
is `some s` with `s ≠ ""`. -/

/-- JS truthiness of an optional string: `undefined`, `null` and `""` are falsy. -/
def jsTruthy : Option String → Bool
  | none => false
  | some s => s ≠ ""

/-- JS `a || b` on optional strings: keep `a` when truthy, else `b`. -/
def jsOr (a b : Option String) : Option String :=
  if jsTruthy a then a else b

/-- JS `a || b` where `a` is an optional string and `b` a plain string. -/
def jsOrS (a : Option String) (b : String) : String :=
  if jsTruthy a then a.getD "" else b

/-! ## SHA-256

Model of the platform primitive `crypto.subtle.digest("SHA-256", data)` used by
`src/lib/pkce.ts`.  This is FIPS 180-4 SHA-256 over byte lists, with 32-bit
words represented as `Nat` values reduced modulo `2 ^ 32`. -/

/-- Reduce to a 32-bit word. -/
def w32 (n : Nat) : Nat := n % 4294967296

/-- Right rotation of a 32-bit word. -/
def rotr (n x : Nat) : Nat := w32 ((x >>> n) ||| (x <<< (32 - n)))

/-- Small sigma-0 (message schedule). -/
def ssig0 (x : Nat) : Nat := (rotr 7 x) ^^^ (rotr 18 x) ^^^ (x >>> 3)

/-- Small sigma-1 (message schedule). -/
def ssig1 (x : Nat) : Nat := (rotr 17 x) ^^^ (rotr 19 x) ^^^ (x >>> 10)

/-- Big sigma-0 (compression). -/
def bsig0 (x : Nat) : Nat := (rotr 2 x) ^^^ (rotr 13 x) ^^^ (rotr 22 x)

/-- Big sigma-1 (compression). -/
def bsig1 (x : Nat) : Nat := (rotr 6 x) ^^^ (rotr 11 x) ^^^ (rotr 25 x)

/-- The 64 SHA-256 round constants, written in decimal (`0x428a2f98` is
`1116352408`, and so on, in FIPS 180-4 order). -/
def sha256K : List Nat :=
  [1116352408, 1899447441, 3049323471, 3921009573, 961987163, 1508970993,
   2453635748, 2870763221, 3624381080, 310598401, 607225278, 1426881987,
   1925078388, 2162078206, 2614888103, 3248222580, 3835390401, 4022224774,
   264347078, 604807628, 770255983, 1249150122, 1555081692, 1996064986,
   2554220882, 2821834349, 2952996808, 3210313671, 3336571891, 3584528711,
   113926993, 338241895, 666307205, 773529912, 1294757372, 1396182291,
   1695183700, 1986661051, 2177026350, 2456956037, 2730485921, 2820302411,
   3259730800, 3345764771, 3516065817, 3600352804, 4094571909, 275423344,
   430227734, 506948616, 659060556, 883997877, 958139571, 1322822218,
   1537002063, 1747873779, 1955562222, 2024104815, 2227730452, 2361852424,
   2428436474, 2756734187, 3204031479, 3329325298]

/-- The eight 32-bit working variables of the SHA-256 hash state. -/
structure Sha256State where
  a : Nat
  b : Nat
  c : Nat
  d : Nat
  e : Nat
  f : Nat
  g : Nat
  h : Nat

/-- The SHA-256 initial hash value, in decimal (`0x6a09e667` is
`1779033703`, and so on). -/
def sha256H0 : Sha256State :=
  ⟨1779033703, 3144134277, 1013904242, 2773480762,
   1359893119, 2600822924, 528734635, 1541459225⟩

/-- One SHA-256 compression round with round constant `k` and schedule word `w`. -/
def sha256Round (st : Sha256State) (k w : Nat) : Sha256State :=
  let ch := (st.e &&& st.f) ^^^ ((4294967295 ^^^ st.e) &&& st.g)
  let maj := (st.a &&& st.b) ^^^ (st.a &&& st.c) ^^^ (st.b &&& st.c)
  let t1 := w32 (st.h + bsig1 st.e + ch + k + w)
  let t2 := w32 (bsig0 st.a + maj)
  ⟨w32 (t1 + t2), st.a, st.b, st.c, w32 (st.d + t1), st.e, st.f, st.g⟩

/-- Extend a 16-word block with `n` additional message-schedule words. -/
def extendSchedule : Nat → List Nat → List Nat
  | 0, ws => ws
  | n + 1, ws =>
      let l := ws.length
      let next := w32 (ssig1 (ws.getD (l - 2) 0) + ws.getD (l - 7) 0 +
        ssig0 (ws.getD (l - 15) 0) + ws.getD (l - 16) 0)
      extendSchedule n (ws ++ [next])

/-- Compress one 16-word block into the hash state. -/
def sha256Compress (hs : Sha256State) (block : List Nat) : Sha256State :=
  let ws := extendSchedule 48 block
  let st := (sha256K.zip ws).foldl (fun s p => sha256Round s p.1 p.2) hs
  ⟨w32 (hs.a + st.a), w32 (hs.b + st.b), w32 (hs.c + st.c), w32 (hs.d + st.d),
   w32 (hs.e + st.e), w32 (hs.f + st.f), w32 (hs.g + st.g), w32 (hs.h + st.h)⟩

/-- SHA-256 padding: append `0x80`, zeros to 56 mod 64, and the 64-bit
big-endian bit length. -/
def sha256Pad (msg : List Nat) : List Nat :=
  let len := msg.length
  let zeros := (64 + 56 - ((len + 1) % 64)) % 64
  let bitLen := len * 8
  msg ++ [128] ++ List.replicate zeros 0 ++
    [(bitLen >>> 56) % 256, (bitLen >>> 48) % 256, (bitLen >>> 40) % 256, (bitLen >>> 32) % 256,
     (bitLen >>> 24) % 256, (bitLen >>> 16) % 256, (bitLen >>> 8) % 256, bitLen % 256]

/-- Combine bytes into big-endian 32-bit words, four at a time. -/
def bytesToWords : List Nat → List Nat
  | b0 :: b1 :: b2 :: b3 :: rest =>
      (b0 * 16777216 + b1 * 65536 + b2 * 256 + b3) :: bytesToWords rest
  | _ => []

/-- Split a word list into `n` blocks of 16 words. -/
def chunkWords : Nat → List Nat → List (List Nat)
  | 0, _ => []
  | n + 1, ws => ws.take 16 :: chunkWords n (ws.drop 16)

/-- The eight hash words of a final state, in output order. -/
def stateWords (s : Sha256State) : List Nat := [s.a, s.b, s.c, s.d, s.e, s.f, s.g, s.h]

/-- Big-endian byte decomposition of a hash word. -/
def wordBytes (w : Nat) : List Nat :=
  [(w >>> 24) % 256, (w >>> 16) % 256, (w >>> 8) % 256, w % 256]

/-- SHA-256 of a byte list, as the 32 digest bytes. -/
def sha256 (msg : List Nat) : List Nat :=
  let padded := sha256Pad msg
  let blocks := chunkWords (padded.length / 64) (bytesToWords padded)
  let final := blocks.foldl sha256Compress sha256H0
  (stateWords final).flatMap wordBytes

/-! ## PKCE utilities (`src/lib/pkce.ts`)

`generateCodeVerifier` and `generateState` draw from a CSPRNG and are not
claims here; `generateCodeChallenge` is pure and modelled in full.  `TextEncoder`
is UTF-8 encoding; `btoa` is standard base64 over a binary string. -/

/-- UTF-8 encoding of one character (the platform `TextEncoder`). -/
def utf8Bytes (c : Char) : List Nat :=
  let n := c.toNat
  if n < 128 then [n]
  else if n < 2048 then [192 + n / 64, 128 + n % 64]
  else if n < 65536 then [224 + n / 4096, 128 + (n / 64) % 64, 128 + n % 64]
  else [240 + n / 262144, 128 + (n / 4096) % 64, 128 + (n / 64) % 64, 128 + n % 64]

/-- UTF-8 encoding of a string (the platform `TextEncoder.encode`). -/
def textEncode (s : String) : List Nat := s.data.flatMap utf8Bytes

/-- The standard base64 alphabet used by the platform `btoa`. -/
def btoaAlphabet : List Char :=
  "ABCDEFGHIJKLMNOPQRSTUVWXYZabcdefghijklmnopqrstuvwxyz0123456789+/".data

/-- The base64 digit for a sextet value. -/
def sextet (n : Nat) : Char := btoaAlphabet.getD n 'A'

/-- Base64-encode a byte list three bytes at a time, with `=` padding
(the platform `btoa`). -/
def b64Chunks : List Nat → List Char
  | [] => []
  | [b0] => [sextet (b0 / 4), sextet (b0 % 4 * 16), '=', '=']
  | [b0, b1] => [sextet (b0 / 4), sextet (b0 % 4 * 16 + b1 / 16), sextet (b1 % 16 * 4), '=']
  | b0 :: b1 :: b2 :: rest =>
      sextet (b0 / 4) :: sextet (b0 % 4 * 16 + b1 / 16) ::
        sextet (b1 % 16 * 4 + b2 / 64) :: sextet (b2 % 64) :: b64Chunks rest

/-- The character replacement `+ → -`, `/ → _` from `base64UrlEncode`. -/
def b64UrlChar (c : Char) : Char :=
  if c = '+' then '-' else if c = '/' then '_' else c

/-- Model of `base64UrlEncode` from `src/lib/pkce.ts`: `btoa`, then `+ → -`, `/ → _`,
then strip every `=`. -/
def base64UrlEncode (bytes : List Nat) : String :=
  ⟨((b64Chunks bytes).map b64UrlChar).filter (fun c => c != '=')⟩

/-- Model of `generateCodeChallenge` from `src/lib/pkce.ts`: base64url of the SHA-256
digest of the UTF-8 verifier. -/
def generateCodeChallenge (verifier : String) : String :=
  base64UrlEncode (sha256 (textEncode verifier))

/-- Membership in the base64url character set `[A-Za-z0-9_-]`. -/
def isB64UrlChar (c : Char) : Bool :=
  ('A' ≤ c && c ≤ 'Z') || ('a' ≤ c && c ≤ 'z') || ('0' ≤ c && c ≤ '9') || c = '-' || c = '_'

/-! ## Micropub client (`src/lib/micropub-client.ts`)

The client is a stateless request builder/normalizer.  The network call is
modelled by passing the endpoint's HTTP response as an explicit argument; the
model keeps the request body (what is sent) separate from the response
handling (what comes back), which in the source both live in one `async`
method. -/

/-- A JSON value supplied by a tool caller for a property: the client only
distinguishes arrays (`Array.isArray`) from everything else. -/
inductive JVal where
  | str (s : String)
  | num (n : Int)
  | arr (elems : List JVal)

/-- Model of `Array.isArray(value) ? value : [value]` — the Micropub array
normalization applied to every property value. -/
def toPropArray : JVal → List JVal
  | .arr xs => xs
  | v => [v]

/-- The JSON error fields the client reads from a failed response body. -/
structure ErrBody where
  error : Option String := none
  error_description : Option String := none

/-- A Micropub endpoint HTTP response, as far as the client inspects it:
status, `Location` header, and a body that either parses as JSON (`json`)
or is raw text (`text`); `text = none` additionally models a body whose
text extraction itself fails. -/
structure MpResponse where
  status : Nat
  location : Option String := none
  json : Option ErrBody := none
  text : Option String := none

/-- Shape of `MicropubResult` from `src/types.ts`, as produced by the client. -/
structure MicropubResult where
  success : Bool
  location : Option String := none
  error : Option String := none
deriving DecidableEq

namespace MicropubClient

/-- The response handling of `MicropubClient.request`: 201/202 succeed with
the `Location` header (`|| undefined` drops an empty one), 200/204 succeed
without one, and every other status yields `{success: false, error}` with the
message precedence `error_description`, then `error`, then the raw text body,
then `HTTP <status>`. -/
def request (resp : MpResponse) : MicropubResult :=
  if resp.status = 201 ∨ resp.status = 202 then
    { success := true, location := if jsTruthy resp.location then resp.location else none }
  else if resp.status = 200 ∨ resp.status = 204 then
    { success := true }
  else
    let base := "HTTP " ++ toString resp.status
    let msg :=
      match resp.json with
      | some body => jsOrS body.error_description (jsOrS body.error base)
      | none =>
          match resp.text with
          | some t => if t ≠ "" then t else base
          | none => base
    { success := false, error := some msg }

/-- The JSON body `createEntry` POSTs: `{type: ["h-entry"], properties}`. -/
structure CreateBody where
  type : List String
  properties : List (String × List JVal)

/-- The body built by `MicropubClient.createEntry`: every property value is
normalized to an array. -/
def createEntryBody (properties : List (String × JVal)) : CreateBody :=
  { type := ["h-entry"],
    properties := properties.map fun p => (p.1, toPropArray p.2) }

/-- Model of `MicropubClient.createEntry`: the body sent and the result computed from
the endpoint's response by `request`. -/
def createEntry (properties : List (String × JVal)) (resp : MpResponse) :
    CreateBody × MicropubResult :=
  (createEntryBody properties, request resp)

/-- The `update` options accepted by `updateEntry`; `delete` is either a list
of property names or per-value removals. -/
structure UpdateOptions where
  replace : Option (List (String × JVal)) := none
  add : Option (List (String × JVal)) := none
  delete : Option (Sum (List String) (List (String × JVal))) := none

/-- The JSON body `updateEntry` POSTs. -/
structure UpdateBody where
  action : String
  url : String
  replace : Option (List (String × List JVal)) := none
  add : Option (List (String × List JVal)) := none
  delete : Option (Sum (List String) (List (String × List JVal))) := none

/-- The body built by `MicropubClient.updateEntry`: `replace`/`add` values and
object-form `delete` values are array-normalized; array-form `delete` passes
through. -/
def updateEntryBody (url : String) (options : UpdateOptions) : UpdateBody :=
  { action := "update", url := url,
    replace := options.replace.map (List.map fun p => (p.1, toPropArray p.2)),
    add := options.add.map (List.map fun p => (p.1, toPropArray p.2)),
    delete := options.delete.map fun d =>
      match d with
      | .inl names => .inl names
      | .inr props => .inr (props.map fun p => (p.1, toPropArray p.2)) }

/-- Model of `MicropubClient.updateEntry`: body sent plus `request`'s result. -/
def updateEntry (url : String) (options : UpdateOptions) (resp : MpResponse) :
    UpdateBody × MicropubResult :=
  (updateEntryBody url options, request resp)

/-- Model of `MicropubClient.deleteEntry`: POSTs `{action:"delete", url}` and returns
`request`'s result for the response. -/
def deleteEntry (_url : String) (resp : MpResponse) : MicropubResult :=
  request resp

/-- Model of `MicropubClient.undeleteEntry`: POSTs `{action:"undelete", url}` and
returns `request`'s result for the response. -/
def undeleteEntry (_url : String) (resp : MpResponse) : MicropubResult :=
  request resp

/-- Model of `MicropubClient.query`: on a non-ok response (`response.ok` is status
200–299) it THROWS an `Error` — modelled as `Except.error` — with the message
precedence `error_description`, then `error`, then `Query failed: HTTP
<status>`; on an ok response it returns the parsed JSON body (the model keeps
the fields the embedding tracks), throwing when the body is not JSON. -/
def query (resp : MpResponse) : Except String ErrBody :=
  if 200 ≤ resp.status ∧ resp.status ≤ 299 then
    match resp.json with
    | some body => Except.ok body
    | none => Except.error "Unexpected end of JSON input"
  else
    let base := "Query failed: HTTP " ++ toString resp.status
    let msg :=
      match resp.json with
      | some body => jsOrS body.error_description (jsOrS body.error base)
      | none => base
    Except.error msg

end MicropubClient

/-! ## IndieAuth flow client (`src/lib/indieauth.ts`)

Only the response handling of `exchangeCodeForToken` is claim-relevant; the
outgoing form-encoded body does not influence it.  The token endpoint's
response is passed explicitly. -/

/-- The JSON fields of a token-endpoint response body that
`exchangeCodeForToken` reads. -/
structure TokenBody where
  access_token : Option String := none
  token_type : Option String := none
  scope : Option String := none
  me : Option String := none
  expires_in : Option Nat := none
  refresh_token : Option String := none
  error : Option String := none
  error_description : Option String := none

/-- A token-endpoint HTTP response: status plus a body that either parses as
JSON (`json`) or is raw text (`text`); `text = none` also models a body whose
text extraction fails. -/
structure TokenHttpResponse where
  status : Nat
  json : Option TokenBody := none
  text : Option String := none

/-- The `response.ok` predicate of the fetch API: status in 200–299. -/
def responseOk (status : Nat) : Bool := 200 ≤ status && status ≤ 299

/-- Model of `exchangeCodeForToken` from `src/lib/indieauth.ts` (response handling).
On a non-ok response it throws with message `Token exchange failed: ` followed
by `error_description`, else `error`, else the raw text body, else
`HTTP <status>`.  On an ok response it parses JSON (throwing if that fails)
and validates that `access_token` and `me` are truthy, returning the parsed
body. -/
def exchangeCodeForToken (resp : TokenHttpResponse) : Except String TokenBody :=
  if responseOk resp.status = false then
    let base := "Token exchange failed: HTTP " ++ toString resp.status
    let msg :=
      match resp.json with
      | some body =>
          if jsTruthy body.error_description then
            "Token exchange failed: " ++ body.error_description.getD ""
          else if jsTruthy body.error then
            "Token exchange failed: " ++ body.error.getD ""
          else base
      | none =>
          match resp.text with
          | some t => if t ≠ "" then "Token exchange failed: " ++ t else base
          | none => base
    Except.error msg
  else
    match resp.json with
    | none => Except.error "Unexpected end of JSON input"
    | some tokenResponse =>
        if jsTruthy tokenResponse.access_token = false then
          Except.error "Token response missing access_token"
        else if jsTruthy tokenResponse.me = false then
          Except.error "Token response missing me URL"
        else Except.ok tokenResponse

/-! ## WHATWG URL model

Modelled from the spec: the platform `URL` primitive (`new URL(input, base)`
and its `href` serialization) that `src/lib/discovery.ts` and
`src/auth-handler.ts` call, which is not part of the repository.  The model
follows the WHATWG URL Standard restricted to the grammar the repository
exercises: the special schemes `http`/`https` with host written directly
(no userinfo, no percent-encoding, no IDNA, no tab/newline stripping); any
input outside this restricted grammar is treated as unparseable, i.e. as
`new URL` throwing. -/

/-- Lowercase a string character-wise (ASCII; structural, so that proofs can
evaluate it, unlike the position-loop `String.toLower`). -/
def lowerStr (s : String) : String := String.mk (s.data.map Char.toLower)

/-- Split a character list on a separator character, keeping empty pieces —
the behaviour of JS `String.prototype.split` with a single-character
separator. -/
def splitChar (sep : Char) : List Char → List (List Char)
  | [] => [[]]
  | c :: rest =>
      match splitChar sep rest with
      | [] => [[c]]
      | g :: gs => if c = sep then [] :: g :: gs else (c :: g) :: gs

/-- JS `s.split(sep)` for a single-character separator, as strings. -/
def jsSplit (s : String) (sep : Char) : List String :=
  (splitChar sep s.data).map String.mk

/-- A parsed URL record: lowercased scheme and host, port with the scheme
default stripped, dot-normalized path segments, raw query and fragment. -/
structure UrlRec where
  scheme : String
  host : String
  port : Option Nat := none
  path : List String := [""]
  query : Option String := none
  fragment : Option String := none

/-- Characters allowed after the first in a URL scheme. -/
def isSchemeChar (c : Char) : Bool := c.isAlphanum || c = '+' || c = '-' || c = '.'

/-- Split `scheme:rest` when the input begins with a scheme, lowercasing the
scheme. -/
def schemeSplit (s : String) : Option (String × String) :=
  match s.data with
  | [] => none
  | c :: _ =>
      if c.isAlpha then
        let pre := s.data.takeWhile isSchemeChar
        match s.data.drop pre.length with
        | ':' :: tail => some (lowerStr (String.mk pre), String.mk tail)
        | _ => none
      else none

/-- Characters the restricted grammar accepts in a host. -/
def isHostChar (c : Char) : Bool := c.isAlphanum || c = '.' || c = '-' || c = '_'

/-- The default port of a special scheme. -/
def defaultPort (scheme : String) : Option Nat :=
  if scheme = "http" then some 80 else if scheme = "https" then some 443 else none

/-- Parse a digit run as a number, failing on any non-digit. -/
def digitsVal (cs : List Char) : Option Nat :=
  cs.foldl
    (fun acc c =>
      match acc with
      | none => none
      | some n => if c.isDigit then some (n * 10 + (c.toNat - 48)) else none)
    (some 0)

/-- Parse `host[:port]`, lowercasing the host, validating the port and
dropping it when it is the scheme's default. -/
def parseHostPort (scheme : String) (auth : List Char) : Option (String × Option Nat) :=
  let hostPart := auth.takeWhile (fun c => c ≠ ':')
  let rest := auth.drop hostPart.length
  if hostPart.isEmpty || !hostPart.all isHostChar then none
  else
    let host := lowerStr (String.mk hostPart)
    match rest with
    | [] => some (host, none)
    | ':' :: portChars =>
        if portChars.isEmpty then some (host, none)
        else
          match digitsVal portChars with
          | none => none
          | some p =>
              if p > 65535 then none
              else if defaultPort scheme = some p then some (host, none)
              else some (host, some p)
    | _ => none

/-- WHATWG dot-segment removal over path segments, accumulator first. -/
def normAux : List String → List String → List String
  | acc, [] => acc.reverse
  | acc, seg :: rest =>
      if seg = ".." then
        if rest.isEmpty then ("" :: acc.tail).reverse else normAux acc.tail rest
      else if seg = "." then
        if rest.isEmpty then ("" :: acc).reverse else normAux acc rest
      else normAux (seg :: acc) rest

/-- Normalize a segment list by removing `.` and `..` segments. -/
def normalizeSegs (segs : List String) : List String := normAux [] segs

/-- Split off `?query` and `#fragment` from a string that follows the path. -/
def parseQF (cs : List Char) : Option String × Option String :=
  match cs with
  | '?' :: rest =>
      let q := rest.takeWhile (fun c => c ≠ '#')
      (some (String.mk q),
        match rest.drop q.length with
        | '#' :: t => some (String.mk t)
        | _ => none)
  | '#' :: rest => (none, some (String.mk rest))
  | _ => (none, none)

/-- Parse the path/query/fragment part that follows an authority (or a
root-relative input): raw path segments plus query and fragment. -/
def parsePQF (s : String) : List String × Option String × Option String :=
  match s.data with
  | [] => ([""], none, none)
  | '#' :: rest => ([""], none, some (String.mk rest))
  | '?' :: rest =>
      let qf := parseQF ('?' :: rest)
      ([""], qf.1, qf.2)
  | cs =>
      let p := cs.takeWhile (fun c => c ≠ '?' && c ≠ '#')
      let qf := parseQF (cs.drop p.length)
      ((jsSplit (String.mk p) '/').drop 1, qf.1, qf.2)

/-- Parse everything after `scheme://`. -/
def parseAfterSlashes (scheme : String) (rest : String) : Option UrlRec :=
  let auth := rest.data.takeWhile (fun c => c ≠ '/' && c ≠ '?' && c ≠ '#')
  let tail := rest.data.drop auth.length
  match parseHostPort scheme auth with
  | none => none
  | some hp =>
      let pqf := parsePQF (String.mk tail)
      some { scheme := scheme, host := hp.1, port := hp.2,
             path := normalizeSegs pqf.1, query := pqf.2.1, fragment := pqf.2.2 }

/-- Parse an absolute `http`/`https` URL (no base). -/
def parseAbsolute (s : String) : Option UrlRec :=
  match schemeSplit s with
  | none => none
  | some st =>
      if (st.1 = "http" || st.1 = "https") && st.2.data.take 2 = ['/', '/'] then
        parseAfterSlashes st.1 (String.mk (st.2.data.drop 2))
      else none

/-- Resolve a root-relative input (`/...`) against a base record: keep the
base's scheme, host and port, take path/query/fragment from the input. -/
def rootRelative (rb : UrlRec) (u : String) : UrlRec :=
  let pqf := parsePQF u
  { rb with path := normalizeSegs pqf.1, query := pqf.2.1, fragment := pqf.2.2 }

/-- Resolve a relative-path input against a base record: merge the input's
segments onto the base's path with its last segment removed. -/
def relativeMerge (rb : UrlRec) (u : String) : UrlRec :=
  let p := u.data.takeWhile (fun c => c ≠ '?' && c ≠ '#')
  let qf := parseQF (u.data.drop p.length)
  { rb with path := normalizeSegs (rb.path.dropLast ++ jsSplit (String.mk p) '/'),
            query := qf.1, fragment := qf.2 }

/-- Model of `new URL(input, base)`, returning `none` where `new URL` throws (or where
the input falls outside the model's restricted grammar). -/
def jsNewUrl (input : String) (base : Option String) : Option UrlRec :=
  match schemeSplit input with
  | some _ => parseAbsolute input
  | none =>
      match base with
      | none => none
      | some b =>
          match parseAbsolute b with
          | none => none
          | some rb =>
              match input.data with
              | [] => some { rb with fragment := none }
              | c :: rest =>
                  if c = '/' then
                    if rest.head? = some '/' then
                      parseAfterSlashes rb.scheme (String.mk rest.tail)
                    else some (rootRelative rb input)
                  else if c = '?' then
                    let qf := parseQF input.data
                    some { rb with query := qf.1, fragment := qf.2 }
                  else if c = '#' then
                    some { rb with fragment := some (String.mk rest) }
                  else some (relativeMerge rb input)

/-- Serialize scheme, host and port — for `http`/`https` this is the origin. -/
def serializeSchemeHost (r : UrlRec) : String :=
  r.scheme ++ "://" ++ r.host ++
    (match r.port with
     | some p => ":" ++ toString p
     | none => "")

/-- Serialize path segments: `/` before each segment. -/
def serializePath (segs : List String) : String :=
  String.join (segs.map (fun seg => "/" ++ seg))

/-- Serialize the query and fragment suffix. -/
def serializeQF (q f : Option String) : String :=
  (match q with
   | some qs => "?" ++ qs
   | none => "") ++
  (match f with
   | some fs => "#" ++ fs
   | none => "")

/-- The `href` serialization of a URL record. -/
def serializeUrl (r : UrlRec) : String :=
  serializeSchemeHost r ++ serializePath r.path ++ serializeQF r.query r.fragment

/-- Model of `resolveUrl` from `src/lib/discovery.ts`: nothing for a falsy input,
`new URL(url, base).href` when it parses, the input itself when `new URL`
throws. -/
def resolveUrl (url : Option String) (base : String) : Option String :=
  if jsTruthy url = false then none
  else
    let u := url.getD ""
    match jsNewUrl u (some base) with
    | some r => some (serializeUrl r)
    | none => some u

/-! ## Endpoint discovery (`src/lib/discovery.ts`)

String helpers mirror the JS string methods the source calls, implemented
structurally over `List Char` so proofs can evaluate them. -/

/-- Whitespace removed by JS `trim` (ASCII subset plus NBSP/BOM). -/
def isJsSpace (c : Char) : Bool :=
  c = ' ' || c = '\t' || c = '\n' || c = '\r' ||
    c.toNat = 11 || c.toNat = 12 || c.toNat = 160 || c.toNat = 65279

/-- JS `s.trim()`. -/
def jsTrim (s : String) : String :=
  String.mk (((s.data.dropWhile isJsSpace).reverse.dropWhile isJsSpace).reverse)

/-- JS `s.startsWith(pre)`. -/
def strStarts (s pre : String) : Bool := pre.data.isPrefixOf s.data

/-- JS `s.endsWith(suf)`. -/
def strEnds (s suf : String) : Bool := suf.data.reverse.isPrefixOf s.data.reverse

/-- The input normalization at the top of `discoverEndpoints`
(`src/lib/discovery.ts` lines 20–28): trim, prepend `https://` when no
`http://`/`https://` scheme is present, then append a trailing slash when the
URL does not already end in `/`, contains no `?`, and its last `/`-separated
segment (`url.split("/").pop()`) contains no `.`. -/
def addSchemeStep (url : String) : String :=
  if !(strStarts url "http://" || strStarts url "https://") then "https://" ++ url else url

/-- The trailing-slash condition of the normalization, exactly as coded. -/
def wantsSlash (url : String) : Bool :=
  !strEnds url "/" && !url.data.contains '?' &&
    !((jsSplit url '/').getLastD "").data.contains '.'

/-- The URL normalization of `discoverEndpoints` (lines 20–28). -/
def normalizeSiteUrl (websiteUrl : String) : String :=
  let url := addSchemeStep (jsTrim websiteUrl)
  if wantsSlash url then url ++ "/" else url

/-- All capture-group values of the `rel=`-value regex
(`/^.*rel=["']?([^"']+)["']?.*$/i`) at each position of an (already
lowercased) character list; the greedy `^.*` makes the LAST one the regex's
capture.  The model assumes the header contains no newline (true of HTTP
header values), which `.`/`$` would otherwise not cross. -/
def relCaptureAt (cs : List Char) : Option (List Char) :=
  let cs2 :=
    match cs with
    | c :: rest => if c = '"' || c = '\'' then rest else cs
    | [] => []
  let cap := cs2.takeWhile (fun c => !(c = '"' || c = '\''))
  if cap.isEmpty then none else some cap

/-- All successful `rel=` capture positions, in order. -/
def relCaptures : List Char → List (List Char)
  | [] => []
  | c :: rest =>
      let here :=
        if ['r', 'e', 'l', '='].isPrefixOf (c :: rest) then
          match relCaptureAt ((c :: rest).drop 4) with
          | some cap => [cap]
          | none => []
        else []
      here ++ relCaptures rest

/-- JS `s.split(/\s+/)`: split on maximal whitespace runs (an empty leading or
trailing piece appears when the string starts or ends with whitespace). -/
def splitWsCore : List Char → List (List Char)
  | [] => [[]]
  | c :: rest =>
      match splitWsCore rest with
      | [] => [[]]
      | g :: gs =>
          if isJsSpace c then
            if g.isEmpty && !gs.isEmpty then g :: gs
            else [] :: g :: gs
          else (c :: g) :: gs

/-- The first `/<([^>]+)>/` match of a character list: the contents of the
first angle-bracket pair with a nonempty inside. -/
def angleCapture : List Char → Option (List Char)
  | [] => none
  | '<' :: rest =>
      let inner := rest.takeWhile (fun c => c ≠ '>')
      if inner.isEmpty then angleCapture rest
      else
        match rest.drop inner.length with
        | '>' :: _ => some inner
        | _ => angleCapture rest
  | _ :: rest => angleCapture rest

/-- Process one comma-separated entry of a Link header for `extractLinkRel`:
split on `;`, require at least two parts, take the `<url>` of the first part,
find the `rel=` part, extract its (lowercased) value with the replace regex,
split it on whitespace and test membership of the sought rel. -/
def linkEntryRel (link : String) (relLower : String) : Option String :=
  let parts := jsSplit (jsTrim link) ';'
  if parts.length < 2 then none
  else
    match angleCapture (parts.headD "").data with
    | none => none
    | some url =>
        match parts.find? (fun p => strStarts (lowerStr (jsTrim p)) "rel=") with
        | none => none
        | some relPart =>
            let low := lowerStr relPart
            let relValue :=
              match (relCaptures low.data).getLast? with
              | some cap => cap
              | none => low.data
            if ((splitWsCore relValue).map String.mk).contains relLower then
              some (String.mk url)
            else none

/-- Model of `extractLinkRel` from `src/lib/discovery.ts`: split the Link header on
`,` and return the first entry whose rel list contains the sought value
(case-insensitively). -/
def extractLinkRel (header : String) (rel : String) : Option String :=
  (jsSplit header ',').findSome? (fun link => linkEntryRel link (lowerStr rel))

/-- Is this character one of the quote characters of the `["']` class? -/
def isQuote (c : Char) : Bool := c = '"' || c = '\''

/-- Case-insensitively strip a (lowercase) literal pattern from the front. -/
def ciStrip (pat : List Char) (cs : List Char) : Option (List Char) :=
  if pat.isPrefixOf (cs.map Char.toLower) then some (cs.drop pat.length) else none

/-- Greedy descending backtracking: try `f k` for `k = n, n-1, …, 1` (a `+`
quantifier prefers the longest run). -/
def firstSomeDesc (f : Nat → Option α) : Nat → Option α
  | 0 => none
  | k + 1 =>
      match f (k + 1) with
      | some r => some r
      | none => firstSomeDesc f k

/-- The `(["']([^"']+)["'])`-shaped capture: a maximal nonempty run of
non-quote characters that must be closed by a quote. -/
def quotedCapture (cs : List Char) : Option (List Char) :=
  let cap := cs.takeWhile (fun c => !isQuote c)
  if cap.isEmpty then none
  else
    match cs.drop cap.length with
    | c :: _ => if isQuote c then some cap else none
    | [] => none

/-- The first regex alternative of `extractHtmlLinkRel`:
`rel=["']REL["'][^>]+href=["']([^"']+)["']` at the given suffix. -/
def tryRelFirst (relLow : List Char) (t : List Char) : Option (List Char) :=
  match ciStrip ['r', 'e', 'l', '='] t with
  | none => none
  | some t1 =>
      match t1 with
      | q :: t2 =>
          if isQuote q then
            match ciStrip relLow t2 with
            | none => none
            | some t3 =>
                match t3 with
                | q2 :: t4 =>
                    if isQuote q2 then
                      firstSomeDesc
                        (fun k =>
                          match ciStrip ['h', 'r', 'e', 'f', '='] (t4.drop k) with
                          | none => none
                          | some t6 =>
                              match t6 with
                              | q3 :: t7 => if isQuote q3 then quotedCapture t7 else none
                              | [] => none)
                        (t4.takeWhile (fun c => c ≠ '>')).length
                    else none
                | [] => none
          else none
      | [] => none

/-- The second regex alternative of `extractHtmlLinkRel`:
`href=["']([^"']+)["'][^>]+rel=["']REL["']` at the given suffix. -/
def tryHrefFirst (relLow : List Char) (t : List Char) : Option (List Char) :=
  match ciStrip ['h', 'r', 'e', 'f', '='] t with
  | none => none
  | some t1 =>
      match t1 with
      | q :: t2 =>
          if isQuote q then
            match quotedCapture t2 with
            | none => none
            | some cap =>
                let t3 := t2.drop (cap.length + 1)
                match
                  firstSomeDesc
                    (fun k =>
                      match ciStrip ['r', 'e', 'l', '='] (t3.drop k) with
                      | none => none
                      | some t5 =>
                          match t5 with
                          | q2 :: t6 =>
                              if isQuote q2 then
                                match ciStrip relLow t6 with
                                | none => none
                                | some t7 =>
                                    match t7 with
                                    | q3 :: _ => if isQuote q3 then some cap else none
                                    | [] => none
                              else none
                          | [] => none)
                    (t3.takeWhile (fun c => c ≠ '>')).length
                with
                | some c => some c
                | none => none
          else none
      | [] => none

/-- A match attempt of the `extractHtmlLinkRel` regex at one start position:
`<link` (case-insensitively), then a nonempty greedy `[^>]+`, then the first
alternative before the second. -/
def matchLinkAt (relLow : List Char) (s : List Char) : Option (List Char) :=
  match ciStrip ['<', 'l', 'i', 'n', 'k'] s with
  | none => none
  | some t0 =>
      firstSomeDesc
        (fun k =>
          let t := t0.drop k
          match tryRelFirst relLow t with
          | some cap => some cap
          | none => tryHrefFirst relLow t)
        (t0.takeWhile (fun c => c ≠ '>')).length

/-- Leftmost-match scan over the HTML. -/
def extractHtmlScan (relLow : List Char) : List Char → Option (List Char)
  | [] => none
  | c :: rest =>
      match matchLinkAt relLow (c :: rest) with
      | some cap => some cap
      | none => extractHtmlScan relLow rest

/-- Model of `extractHtmlLinkRel` from `src/lib/discovery.ts`: the first match of
`/<link[^>]+(?:rel=["']REL["'][^>]+href=["']([^"']+)["']|href=["']([^"']+)["'][^>]+rel=["']REL["'])/i`
(with the sought rel escaped to a literal), returning the captured href. -/
def extractHtmlLinkRel (html : String) (rel : String) : Option String :=
  (extractHtmlScan (lowerStr rel).data html.data).map String.mk

/-! ## `discoverEndpoints` over an explicit fetch world -/

/-- Shape of `DiscoveryResult` from `src/types.ts`. -/
structure DiscoveryResult where
  me : String
  micropubEndpoint : Option String := none
  authorizationEndpoint : Option String := none
  tokenEndpoint : Option String := none
deriving DecidableEq

/-- The fields `fetchIndieAuthMetadata` reads from a metadata document. -/
structure MetadataDoc where
  authorization_endpoint : Option String := none
  token_endpoint : Option String := none

/-- The site response `discoverEndpoints` fetches: `ok`/status for the
failure path, the post-redirect final URL, the `Link` header, and the HTML
body. -/
structure SiteResponse where
  ok : Bool := true
  status : Nat := 200
  statusText : String := ""
  url : String
  linkHeader : Option String := none
  htmlBody : String := ""

/-- The network as `discoverEndpoints` sees it: the site response plus, per
metadata URL, the outcome of `fetchIndieAuthMetadata` (`none` models every
failure the `catch` swallows: non-ok status, network error, non-JSON body). -/
structure FetchWorld where
  site : SiteResponse
  metadata : String → Option MetadataDoc

/-- The endpoint candidates accumulated before the final resolve step. -/
structure PreEndpoints where
  metadataUrl : Option String := none
  micropubEndpoint : Option String := none
  authorizationEndpoint : Option String := none
  tokenEndpoint : Option String := none
deriving DecidableEq

/-- The Link-header pass then the HTML fallback pass of `discoverEndpoints`
(lines 43–73): header values win; each HTML lookup runs only for a field
still unset. -/
def linkHtmlPhase (linkHeader : Option String) (html : String) : PreEndpoints :=
  let fromLink : PreEndpoints :=
    if jsTruthy linkHeader then
      let hdr := linkHeader.getD ""
      { metadataUrl := extractLinkRel hdr "indieauth-metadata",
        micropubEndpoint := extractLinkRel hdr "micropub",
        authorizationEndpoint := extractLinkRel hdr "authorization_endpoint",
        tokenEndpoint := extractLinkRel hdr "token_endpoint" }
    else {}
  { metadataUrl :=
      if jsTruthy fromLink.metadataUrl then fromLink.metadataUrl
      else extractHtmlLinkRel html "indieauth-metadata",
    micropubEndpoint :=
      if jsTruthy fromLink.micropubEndpoint then fromLink.micropubEndpoint
      else extractHtmlLinkRel html "micropub",
    authorizationEndpoint :=
      if jsTruthy fromLink.authorizationEndpoint then fromLink.authorizationEndpoint
      else extractHtmlLinkRel html "authorization_endpoint",
    tokenEndpoint :=
      if jsTruthy fromLink.tokenEndpoint then fromLink.tokenEndpoint
      else extractHtmlLinkRel html "token_endpoint" }

/-- The metadata pass of `discoverEndpoints` (lines 75–89): when a metadata
URL was found, fetch it; on success its truthy `authorization_endpoint` /
`token_endpoint` fields override, on failure everything is kept. -/
def metadataPhase (pre : PreEndpoints) (canonicalUrl : String)
    (fetchMeta : String → Option MetadataDoc) : PreEndpoints :=
  if jsTruthy pre.metadataUrl then
    match fetchMeta ((resolveUrl pre.metadataUrl canonicalUrl).getD "") with
    | some meta =>
        { pre with
          authorizationEndpoint :=
            if jsTruthy meta.authorization_endpoint then meta.authorization_endpoint
            else pre.authorizationEndpoint,
          tokenEndpoint :=
            if jsTruthy meta.token_endpoint then meta.token_endpoint
            else pre.tokenEndpoint }
    | none => pre
  else pre

/-- Model of `discoverEndpoints` from `src/lib/discovery.ts` over an explicit fetch
world: normalize the input, fail on a non-ok site response, take the final
response URL as `me`, run the Link/HTML pass, the metadata pass, and resolve
every endpoint against `me`. -/
def discoverEndpoints (websiteUrl : String) (w : FetchWorld) : Except String DiscoveryResult :=
  let url := normalizeSiteUrl websiteUrl
  if w.site.ok = false then
    Except.error
      ("Failed to fetch " ++ url ++ ": " ++ toString w.site.status ++ " " ++ w.site.statusText)
  else
    let canonicalUrl := w.site.url
    let pre := linkHtmlPhase w.site.linkHeader w.site.htmlBody
    let post := metadataPhase pre canonicalUrl w.metadata
    Except.ok
      { me := canonicalUrl,
        micropubEndpoint := resolveUrl post.micropubEndpoint canonicalUrl,
        authorizationEndpoint := resolveUrl post.authorizationEndpoint canonicalUrl,
        tokenEndpoint := resolveUrl post.tokenEndpoint canonicalUrl }

/-! ## IndieAuth callback orchestrator (`src/auth-handler.ts`)

`handleIndieAuthCallback` is modelled as a pure transition on an explicit
key/value store, with the external effects (token exchange, config fetch,
grant completion) supplied by a world of oracles and recorded in an effect
trace whose order mirrors the source's `await` order.  The KV store maps keys
to parsed pending-authorization records (the source stores their
`JSON.stringify`; deletion happens before the parse, so serialization is
irrelevant to the claims). -/

/-- Shape of `StoredOAuthRequest` from `src/auth-handler.ts`: the serializable
snapshot of the upstream OAuth request. -/
structure StoredOAuthRequest where
  responseType : String
  clientId : String
  redirectUri : String
  state : String
  scope : List String
  codeChallenge : Option String := none
  codeChallengeMethod : Option String := none

/-- Shape of `PendingAuth` (plus the stored OAuth request) as written to KV by the
login-submit handler. -/
structure PendingAuth where
  me : String
  micropubEndpoint : String
  mediaEndpoint : Option String := none
  authorizationEndpoint : String
  tokenEndpoint : String
  codeVerifier : String
  clientRedirectUri : String
  requestedScope : String
  createdAt : Nat := 0
  storedOAuthReq : StoredOAuthRequest

/-- Shape of `AuthProps` from `src/types.ts`: the durable grant properties. -/
structure AuthProps where
  me : String
  micropubEndpoint : String
  mediaEndpoint : Option String := none
  indieAuthToken : String
  tokenType : String
  scope : String
  refreshToken : Option String := none
  tokenExpiresAt : Option Nat := none
  tokenEndpoint : String

/-- A token response that passed `exchangeCodeForToken`'s validation, with
the fields the callback reads. -/
structure ExchangedToken where
  access_token : String
  token_type : String
  scope : String
  me : String
  refresh_token : Option String := none
  expires_in : Option Nat := none

/-- The pending-authorization store (`env.OAUTH_KV`), keyed by
`pending:<state>`. -/
def KVStore := String → Option PendingAuth

/-- The externally observable effects of one callback invocation, in the
order the source awaits them. -/
inductive CallbackEff where
  | kvGet (key : String)
  | kvDelete (key : String)
  | tokenExchange (tokenEndpoint code : String)
  | configFetch (micropubEndpoint : String)
  | completeAuth (userId : String)
deriving DecidableEq

/-- What the callback handler responds with. -/
inductive CallbackOutcome where
  | errorPage (message : String)
  | redirect (url : String)
deriving DecidableEq

/-- The query parameters of the downstream callback request. -/
structure CallbackParams where
  code : Option String := none
  state : Option String := none
  error : Option String := none
  errorDescription : Option String := none

/-- The world of external collaborators the callback awaits: the token
exchange (per endpoint, code and verifier; an `Except.error` is the thrown
error's string form), the best-effort `?q=config` media-endpoint lookup
(`none` = the attempt failed and is swallowed, `some m` = the response was ok
and assigned `config["media-endpoint"] = m`), the provider's
`completeAuthorization`, and the clock. -/
structure CallbackWorld where
  exchange : String → String → String → Except String ExchangedToken
  configMedia : String → String → Option (Option String)
  completeAuth : StoredOAuthRequest → String → AuthProps → List String → Except String String
  now : Nat

/-- Model of `token.scope.split(" ")`. -/
def splitScope (s : String) : List String := jsSplit s ' '

/-- Model of `handleIndieAuthCallback` from `src/auth-handler.ts` (lines 258–374):
returns the response, the store after the invocation, and the effect trace. -/
def handleIndieAuthCallback (p : CallbackParams) (kv : KVStore) (w : CallbackWorld) :
    CallbackOutcome × KVStore × List CallbackEff :=
  if jsTruthy p.error then
    (.errorPage (jsOrS p.errorDescription (p.error.getD "")), kv, [])
  else if !jsTruthy p.code || !jsTruthy p.state then
    (.errorPage "Missing authorization code or state", kv, [])
  else
    let code := p.code.getD ""
    let state := p.state.getD ""
    let key := "pending:" ++ state
    match kv key with
    | none =>
        (.errorPage "Authorization session expired. Please try again.", kv, [.kvGet key])
    | some pending =>
        let kv' : KVStore := fun k => if k = key then none else kv k
        match w.exchange pending.tokenEndpoint code pending.codeVerifier with
        | .error e =>
            (.errorPage ("Failed to complete authentication: " ++ e), kv',
              [.kvGet key, .kvDelete key, .tokenExchange pending.tokenEndpoint code])
        | .ok token =>
            let attempted := !jsTruthy pending.mediaEndpoint && pending.micropubEndpoint ≠ ""
            let assigned :=
              if attempted then w.configMedia pending.micropubEndpoint token.access_token
              else none
            let mediaEndpoint :=
              match assigned with
              | some m => m
              | none => pending.mediaEndpoint
            let effs := [CallbackEff.kvGet key, CallbackEff.kvDelete key,
              CallbackEff.tokenExchange pending.tokenEndpoint code] ++
              (if attempted then [CallbackEff.configFetch pending.micropubEndpoint] else [])
            let authProps : AuthProps :=
              { me := token.me,
                micropubEndpoint := pending.micropubEndpoint,
                mediaEndpoint := mediaEndpoint,
                indieAuthToken := token.access_token,
                tokenType := token.token_type,
                scope := token.scope,
                refreshToken := token.refresh_token,
                tokenExpiresAt := token.expires_in.map (fun t => w.now + t * 1000),
                tokenEndpoint := pending.tokenEndpoint }
            if pending.storedOAuthReq.redirectUri = "" ∨ pending.storedOAuthReq.clientId = "" then
              (.errorPage
                "Authorization session is invalid. Missing required OAuth parameters. Please try again.",
                kv', effs)
            else if (jsNewUrl pending.storedOAuthReq.redirectUri none).isNone ∨
                (jsNewUrl pending.storedOAuthReq.clientId none).isNone then
              (.errorPage
                "Invalid OAuth configuration. redirectUri or clientId is not a valid URL. Please try again.",
                kv', effs)
            else
              match w.completeAuth pending.storedOAuthReq token.me authProps
                  (splitScope token.scope) with
              | .ok redirectTo =>
                  (.redirect redirectTo, kv', effs ++ [.completeAuth token.me])
              | .error e =>
                  (.errorPage ("Failed to complete authentication: " ++ e), kv',
                    effs ++ [.completeAuth token.me])

/-- A concrete stored OAuth request for witnesses. -/
def storedReqFixture : StoredOAuthRequest :=
  { responseType := "code", clientId := "https://client.example.com/",
    redirectUri := "https://client.example.com/callback", state := "up-state",
    scope := ["create", "update"] }

/-- A concrete pending-authorization record for witnesses. -/
def pendingFixture : PendingAuth :=
  { me := "https://user.example.com/",
    micropubEndpoint := "https://user.example.com/micropub",
    authorizationEndpoint := "https://user.example.com/auth",
    tokenEndpoint := "https://user.example.com/token",
    codeVerifier := "verifier123",
    clientRedirectUri := "https://client.example.com/callback",
    requestedScope := "create update",
    storedOAuthReq := storedReqFixture }

/-- A concrete store holding that record under state `st1`. -/
def kvFixture : KVStore :=
  fun k => if k = "pending:st1" then some pendingFixture else none

/-- A concrete world whose token exchange fails. -/
def worldFixture : CallbackWorld :=
  { exchange := fun _ _ _ => Except.error "Token exchange failed: HTTP 400",
    configMedia := fun _ _ => none,
    completeAuth := fun _ _ _ _ => Except.ok "https://client.example.com/callback?code=xyz",
    now := 0 }

/-- A concrete site response: Link header carrying micropub, a legacy
authorization endpoint, and an indieauth-metadata link. -/
def siteWithMetadataLink : SiteResponse :=
  { url := "https://example.com/",
    linkHeader := some
      ("<https://example.com/micropub>; rel=\"micropub\", " ++
       "<https://legacy.example.com/auth>; rel=\"authorization_endpoint\", " ++
       "<https://legacy.example.com/token>; rel=\"token_endpoint\", " ++
       "<https://example.com/.well-known/oauth-authorization-server>; rel=\"indieauth-metadata\"") }

/-- A metadata oracle that answers the metadata URL above with both endpoint
fields. -/
def metaOracle : String → Option MetadataDoc := fun u =>
  if u = "https://example.com/.well-known/oauth-authorization-server" then
    some { authorization_endpoint := some "https://auth.example.com/authorize",
           token_endpoint := some "https://auth.example.com/token" }
  else none

/-- The concrete world where the metadata fetch succeeds. -/
def worldMetaOk : FetchWorld := { site := siteWithMetadataLink, metadata := metaOracle }

/-- The concrete world where the metadata fetch fails. -/
def worldMetaFail : FetchWorld := { site := siteWithMetadataLink, metadata := fun _ => none }

/-! ## Theorems -/

theorem sextet_mem (n : Nat) : sextet n ∈ btoaAlphabet := by
  unfold sextet
  by_cases h : n < btoaAlphabet.length
  · rw [List.getD_eq_getElem _ _ h]
    exact List.getElem_mem h
  · rw [List.getD_eq_default _ _ (Nat.le_of_not_lt h)]
    decide

theorem alphaChar_ok : ∀ c ∈ btoaAlphabet,
    isB64UrlChar (b64UrlChar c) = true ∧ (b64UrlChar c != '=') = true := by decide

theorem sextet_keep (n : Nat) : (b64UrlChar (sextet n) != '=') = true :=
  (alphaChar_ok _ (sextet_mem n)).2

theorem b64UrlChar_pad : b64UrlChar '=' = '=' := by decide

theorem sextet_urlchar_ok (n : Nat) : isB64UrlChar (b64UrlChar (sextet n)) = true :=
  (alphaChar_ok _ (sextet_mem n)).1

theorem b64core_len : ∀ l : List Nat,
    (((b64Chunks l).map b64UrlChar).filter (fun c => c != '=')).length = (4 * l.length + 2) / 3
  | [] => by simp [b64Chunks]
  | [b0] => by
      simp [b64Chunks, List.filter, sextet_keep, b64UrlChar_pad]
  | [b0, b1] => by
      simp [b64Chunks, List.filter, sextet_keep, b64UrlChar_pad]
  | b0 :: b1 :: b2 :: rest => by
      have ih := b64core_len rest
      simp only [b64Chunks, List.map, List.filter, sextet_keep] at ih ⊢
      simp only [List.length_cons]
      omega

theorem b64core_chars : ∀ l : List Nat, ∀ c ∈ b64Chunks l, c ∈ btoaAlphabet ∨ c = '='
  | [] => by simp [b64Chunks]
  | [b0] => by
      simp only [b64Chunks, List.mem_cons, List.not_mem_nil, or_false]
      rintro c (rfl | rfl | rfl | rfl) <;> first | exact Or.inl (sextet_mem _) | exact Or.inr rfl
  | [b0, b1] => by
      simp only [b64Chunks, List.mem_cons, List.not_mem_nil, or_false]
      rintro c (rfl | rfl | rfl | rfl) <;> first | exact Or.inl (sextet_mem _) | exact Or.inr rfl
  | b0 :: b1 :: b2 :: rest => by
      have ih := b64core_chars rest
      simp only [b64Chunks, List.mem_cons] at ih ⊢
      rintro c (rfl | rfl | rfl | rfl | hc)
      · exact Or.inl (sextet_mem _)
      · exact Or.inl (sextet_mem _)
      · exact Or.inl (sextet_mem _)
      · exact Or.inl (sextet_mem _)
      · exact ih c hc

theorem base64UrlEncode_chars (l : List Nat) :
    (base64UrlEncode l).data.all isB64UrlChar = true := by
  rw [List.all_eq_true]
  intro c hc
  have hc' : c ∈ ((b64Chunks l).map b64UrlChar).filter (fun c => c != '=') := hc
  have hmem := List.mem_filter.mp hc'
  obtain ⟨c0, hc0, rfl⟩ := List.mem_map.mp hmem.1
  rcases b64core_chars l c0 hc0 with h | rfl
  · exact (alphaChar_ok c0 h).1
  · simp [b64UrlChar] at hmem

theorem base64UrlEncode_length (l : List Nat) :
    (base64UrlEncode l).length = (4 * l.length + 2) / 3 :=
  b64core_len l

theorem sha256_length (msg : List Nat) : (sha256 msg).length = 32 := rfl

set_option maxRecDepth 8000 in
/-- C2: `generateCodeChallenge` is a deterministic pure function; for every
verifier it returns a 43-character string over the base64url alphabet
`[A-Za-z0-9_-]`, and on the RFC 7636 test-vector verifier it returns the
expected challenge. -/
theorem generateCodeChallenge_spec :
    (∀ v : String, generateCodeChallenge v = generateCodeChallenge v ∧
      (generateCodeChallenge v).length = 43 ∧
      (generateCodeChallenge v).data.all isB64UrlChar = true) ∧
    generateCodeChallenge "dBjftJeZ4CVP-mB92K27uhbUJU1p1r_wW1gFWFOEjXk" =
      "E9Melhoa2OwvFrEMTJguCHaoeK1t8URWbuGJSstw-cM" := by
  refine ⟨fun v => ⟨rfl, ?_, base64UrlEncode_chars _⟩, by decide⟩
  rw [generateCodeChallenge, base64UrlEncode_length, sha256_length]

/-- C4 counterexample: `MicropubClient.query` does not return a
`{success:false, error}` result value on a failing status — it throws
(`Except.error`): on a 403 response whose JSON body carries
`error: "forbidden"`, the evaluated model yields a thrown error, refuting the
claim that every failing Micropub client operation, `query` included, is
returned as a typed result value. -/
theorem query_throws_on_failure :
    MicropubClient.query { status := 403, json := some { error := some "forbidden" } } =
      Except.error "forbidden" := rfl

/-- C4 (amended): every failure of `create`, `update`, `delete`, `undelete` —
i.e. every response status outside {200, 201, 202, 204} — is returned as a
typed `{success := false, error}` value rather than thrown, while a failing
`query` (non-2xx status) instead throws an exception carrying the same
error-message precedence. -/
theorem micropub_failure_modes (resp : MpResponse)
    (h : resp.status ≠ 200 ∧ resp.status ≠ 201 ∧ resp.status ≠ 202 ∧ resp.status ≠ 204) :
    (MicropubClient.request resp).success = false ∧
    (MicropubClient.request resp).error.isSome = true ∧
    (∀ props, (MicropubClient.createEntry props resp).2 = MicropubClient.request resp) ∧
    (∀ url options, (MicropubClient.updateEntry url options resp).2 =
      MicropubClient.request resp) ∧
    (∀ url, MicropubClient.deleteEntry url resp = MicropubClient.request resp) ∧
    (∀ url, MicropubClient.undeleteEntry url resp = MicropubClient.request resp) ∧
    (¬(200 ≤ resp.status ∧ resp.status ≤ 299) →
      ∃ e, MicropubClient.query resp = Except.error e) := by
  obtain ⟨h200, h201, h202, h204⟩ := h
  refine ⟨?_, ?_, fun _ => rfl, fun _ _ => rfl, fun _ => rfl, fun _ => rfl, ?_⟩
  · simp [MicropubClient.request, h200, h201, h202, h204]
  · simp [MicropubClient.request, h200, h201, h202, h204]
  · intro hok
    simp only [MicropubClient.query, if_neg hok]
    exact ⟨_, rfl⟩

/-- C4 witness: the amended failure-mode theorem evaluated on a concrete 400
response with a JSON error body. -/
theorem micropub_failure_modes_witness :
    (MicropubClient.request { status := 400, json := some { error := some "bad" } }).success
      = false ∧
    MicropubClient.deleteEntry "https://example.com/p/1"
      { status := 400, json := some { error := some "bad" } } =
      MicropubClient.request { status := 400, json := some { error := some "bad" } } ∧
    (∃ e, MicropubClient.query { status := 400, json := some { error := some "bad" } } =
      Except.error e) := by
  have h := micropub_failure_modes { status := 400, json := some { error := some "bad" } }
    (by refine ⟨?_, ?_, ?_, ?_⟩ <;> decide)
  exact ⟨h.1, h.2.2.2.2.1 _, h.2.2.2.2.2.2 (by decide)⟩

/-- C8: `createEntry` POSTs `type: ["h-entry"]` with every property value
array-normalized — a scalar is wrapped into a singleton array and an array
passes through, so `{content: "Hello"}` and `{content: ["Hello"]}` produce the
same body with `properties.content = ["Hello"]` — and a 201 response with a
(nonempty) `Location` header yields `{success := true, location := <that
header>}` while 202, 200 and 204 also succeed. -/
theorem createEntry_spec :
    (∀ props : List (String × JVal),
      (MicropubClient.createEntryBody props).type = ["h-entry"] ∧
      (MicropubClient.createEntryBody props).properties =
        props.map (fun p => (p.1, toPropArray p.2))) ∧
    (∀ xs : List JVal, toPropArray (JVal.arr xs) = xs) ∧
    (∀ s : String, toPropArray (JVal.str s) = [JVal.str s]) ∧
    MicropubClient.createEntryBody [("content", JVal.str "Hello")] =
      MicropubClient.createEntryBody [("content", JVal.arr [JVal.str "Hello"])] ∧
    (MicropubClient.createEntryBody [("content", JVal.str "Hello")]).properties =
      [("content", [JVal.str "Hello"])] ∧
    (∀ resp : MpResponse, ∀ loc : String, resp.status = 201 → resp.location = some loc →
      loc ≠ "" → ∀ props,
        (MicropubClient.createEntry props resp).2 =
          { success := true, location := some loc }) ∧
    (∀ resp : MpResponse, resp.status = 202 ∨ resp.status = 200 ∨ resp.status = 204 →
      ∀ props, ((MicropubClient.createEntry props resp).2).success = true) := by
  refine ⟨fun props => ⟨rfl, rfl⟩, fun xs => rfl, fun s => rfl, rfl, rfl, ?_, ?_⟩
  · intro resp loc h201 hloc hne props
    simp [MicropubClient.createEntry, MicropubClient.request, h201, hloc, jsTruthy, hne]
  · rintro resp (h | h | h) props <;>
      simp [MicropubClient.createEntry, MicropubClient.request, h]

/-- C8 witness: the create round-trip evaluated on a concrete 201 response
carrying a `Location` header, and on a concrete 204 response. -/
theorem createEntry_spec_witness :
    (MicropubClient.createEntry [("content", JVal.str "Hello")]
      { status := 201, location := some "https://example.com/posts/123" }).2 =
      { success := true, location := some "https://example.com/posts/123" } ∧
    ((MicropubClient.createEntry [("content", JVal.str "Hello")] { status := 204 }).2).success
      = true := by
  have h := createEntry_spec
  exact ⟨h.2.2.2.2.2.1 { status := 201, location := some "https://example.com/posts/123" }
      "https://example.com/posts/123" rfl rfl (by decide) _,
    h.2.2.2.2.2.2 { status := 204 } (by tauto) _⟩

/-- C3 counterexample: on a 400 response whose JSON body carries
`error_description: "The authorization code has expired"`, the failure message
is `Token exchange failed: ` followed by that description — it is not equal to
the provider's `error_description` itself, refuting the claim's "message equal
to the provider's error_description". -/
theorem exchange_message_is_prefixed :
    exchangeCodeForToken
      { status := 400,
        json := some { error_description := some "The authorization code has expired" } } =
      Except.error "Token exchange failed: The authorization code has expired" ∧
    "Token exchange failed: The authorization code has expired" ≠
      "The authorization code has expired" :=
  ⟨rfl, by decide⟩

/-- C3 (amended): on a non-2xx response the function fails with the message
`Token exchange failed: ` followed by: the provider's `error_description` when
the body is JSON and that field is truthy, else the provider's `error` field
when truthy, else (for a non-JSON body) the nonempty raw body text, else
`HTTP <status>`; on a 2xx response with a JSON body it fails with a validation
error exactly when `access_token` or `me` is absent or empty, and otherwise
returns the parsed token response. -/
theorem exchangeCodeForToken_spec (resp : TokenHttpResponse) :
    (¬(200 ≤ resp.status ∧ resp.status ≤ 299) →
      (∀ body, resp.json = some body →
        (jsTruthy body.error_description = true →
          exchangeCodeForToken resp = Except.error
            ("Token exchange failed: " ++ body.error_description.getD "")) ∧
        (jsTruthy body.error_description = false → jsTruthy body.error = true →
          exchangeCodeForToken resp = Except.error
            ("Token exchange failed: " ++ body.error.getD "")) ∧
        (jsTruthy body.error_description = false → jsTruthy body.error = false →
          exchangeCodeForToken resp = Except.error
            ("Token exchange failed: HTTP " ++ toString resp.status))) ∧
      (resp.json = none → ∀ t, resp.text = some t → t ≠ "" →
        exchangeCodeForToken resp = Except.error ("Token exchange failed: " ++ t)) ∧
      (resp.json = none → resp.text = none ∨ resp.text = some "" →
        exchangeCodeForToken resp = Except.error
          ("Token exchange failed: HTTP " ++ toString resp.status))) ∧
    (200 ≤ resp.status ∧ resp.status ≤ 299 →
      ∀ body, resp.json = some body →
        ((∃ e, exchangeCodeForToken resp = Except.error e) ↔
          (jsTruthy body.access_token = false ∨ jsTruthy body.me = false)) ∧
        (jsTruthy body.access_token = true → jsTruthy body.me = true →
          exchangeCodeForToken resp = Except.ok body)) := by
  have hok : responseOk resp.status = true ↔ 200 ≤ resp.status ∧ resp.status ≤ 299 := by
    simp [responseOk]
  constructor
  · intro hno
    have hfail : responseOk resp.status = false := by
      rcases h : responseOk resp.status with _ | _
      · rfl
      · exact absurd (hok.mp h) hno
    refine ⟨?_, ?_, ?_⟩
    · intro body hbody
      refine ⟨fun hd => ?_, fun hd he => ?_, fun hd he => ?_⟩
      · simp [exchangeCodeForToken, hfail, hbody, hd]
      · simp [exchangeCodeForToken, hfail, hbody, hd, he]
      · simp [exchangeCodeForToken, hfail, hbody, hd, he]
    · intro hjson t htext hne
      simp [exchangeCodeForToken, hfail, hjson, htext, hne]
    · rintro hjson (htext | htext) <;>
        simp [exchangeCodeForToken, hfail, hjson, htext]
  · intro hyes body hbody
    have hokk : responseOk resp.status = true := hok.mpr hyes
    constructor
    · constructor
      · rintro ⟨e, he⟩
        by_contra hcon
        push_neg at hcon
        obtain ⟨hat, hme⟩ := hcon
        simp only [Bool.not_eq_false] at hat hme
        simp [exchangeCodeForToken, hokk, hbody, hat, hme] at he
      · rintro (hat | hme)
        · exact ⟨"Token response missing access_token",
            by simp [exchangeCodeForToken, hokk, hbody, hat]⟩
        · rcases h : jsTruthy body.access_token with _ | _
          · exact ⟨"Token response missing access_token",
              by simp [exchangeCodeForToken, hokk, hbody, h]⟩
          · exact ⟨"Token response missing me URL",
              by simp [exchangeCodeForToken, hokk, hbody, h, hme]⟩
    · intro hat hme
      simp [exchangeCodeForToken, hokk, hbody, hat, hme]

/-- C3 witness: the amended token-exchange theorem evaluated on a concrete
failing 400 response and a concrete successful 200 response. -/
theorem exchangeCodeForToken_spec_witness :
    exchangeCodeForToken { status := 400, json := some { error := some "invalid_grant" } } =
      Except.error "Token exchange failed: invalid_grant" ∧
    exchangeCodeForToken
      { status := 200,
        json := some
          { access_token := some "tok", token_type := some "Bearer",
            scope := some "create", me := some "https://user.example.com/" } } =
      Except.ok
        { access_token := some "tok", token_type := some "Bearer",
          scope := some "create", me := some "https://user.example.com/" } := by
  have h1 := exchangeCodeForToken_spec
    { status := 400, json := some { error := some "invalid_grant" } }
  have h2 := exchangeCodeForToken_spec
    { status := 200,
      json := some
        { access_token := some "tok", token_type := some "Bearer",
          scope := some "create", me := some "https://user.example.com/" } }
  constructor
  · exact ((h1.1 (by decide)).1 _ rfl).2.1 (by decide) (by decide)
  · exact ((h2.2 (by decide)) _ rfl).2 (by decide) (by decide)

theorem parseAfterSlashes_scheme {sch s : String} {r : UrlRec}
    (h : parseAfterSlashes sch s = some r) : r.scheme = sch := by
  simp only [parseAfterSlashes] at h
  split at h
  · simp at h
  · simp only [Option.some.injEq] at h
    rw [← h]

theorem schemeSplit_slash {u : String} {cs : List Char} (hu : u.data = '/' :: cs) :
    schemeSplit u = none := by
  unfold schemeSplit
  rw [hu]
  simp

theorem schemeSplit_ne_empty {u : String} {st : String × String}
    (h : schemeSplit u = some st) : u ≠ "" := by
  intro he
  rw [he] at h
  simp [schemeSplit] at h

/-- C9 counterexample: an already-absolute URL does not always pass through
unchanged — `new URL` normalizes it: resolving `https://example.com` (empty
path) yields `https://example.com/`. -/
theorem resolveUrl_normalizes :
    resolveUrl (some "https://example.com") "https://base.org/" =
      some "https://example.com/" ∧
    some "https://example.com/" ≠ (some "https://example.com" : Option String) :=
  ⟨rfl, by decide⟩

/-- C9 (amended): `resolveUrl(undefined, base)` returns nothing for every
base; a root-relative path resolves against the base's origin (scheme, host
and port are the base's, path/query/fragment come from the input); an
already-absolute URL resolves independently of the base to its normalized
(`href`) serialization — in particular an input already in normalized form,
such as `https://api.example.com/micropub`, passes through unchanged; and a
protocol-relative URL inherits the base's scheme. -/
theorem resolveUrl_spec :
    (∀ base, resolveUrl none base = none) ∧
    (∀ base u rb c cs, parseAbsolute base = some rb → u.data = '/' :: c :: cs → c ≠ '/' →
      jsNewUrl u (some base) = some (rootRelative rb u) ∧
      (rootRelative rb u).scheme = rb.scheme ∧
      (rootRelative rb u).host = rb.host ∧
      (rootRelative rb u).port = rb.port ∧
      resolveUrl (some u) base = some (serializeUrl (rootRelative rb u))) ∧
    (∀ u r b1 b2, parseAbsolute u = some r →
      resolveUrl (some u) b1 = some (serializeUrl r) ∧
      resolveUrl (some u) b1 = resolveUrl (some u) b2) ∧
    resolveUrl (some "https://api.example.com/micropub") "https://example.com/" =
      some "https://api.example.com/micropub" ∧
    (∀ base u rb cs r, parseAbsolute base = some rb → u.data = '/' :: '/' :: cs →
      jsNewUrl u (some base) = some r → r.scheme = rb.scheme) ∧
    resolveUrl (some "//api.example.com/micropub") "https://example.com/" =
      some "https://api.example.com/micropub" := by
  refine ⟨fun base => rfl, ?_, ?_, rfl, ?_, rfl⟩
  · intro base u rb c cs hb hu hc
    have hne : u ≠ "" := by
      intro he
      rw [he] at hu
      simp at hu
    have hss : schemeSplit u = none := schemeSplit_slash hu
    have hj : jsNewUrl u (some base) = some (rootRelative rb u) := by
      simp only [jsNewUrl, hss, hb, hu]
      simp [hc]
    refine ⟨hj, rfl, rfl, rfl, ?_⟩
    simp [resolveUrl, jsTruthy, hne, hj]
  · intro u r b1 b2 hr
    have hst : ∃ st, schemeSplit u = some st := by
      rcases h : schemeSplit u with _ | st
      · rw [parseAbsolute, h] at hr
        simp at hr
      · exact ⟨st, rfl⟩
    obtain ⟨st, hstv⟩ := hst
    have hne : u ≠ "" := schemeSplit_ne_empty hstv
    have hj : ∀ b, jsNewUrl u (some b) = some r := by
      intro b
      unfold jsNewUrl
      rw [hstv]
      exact hr
    constructor
    · simp [resolveUrl, jsTruthy, hne, hj]
    · simp [resolveUrl, jsTruthy, hne, hj]
  · intro base u rb cs r hb hu hj
    have hss : schemeSplit u = none := schemeSplit_slash hu
    simp only [jsNewUrl, hss, hb, hu] at hj
    simp at hj
    exact parseAfterSlashes_scheme hj

/-- C9 witness: the amended resolution theorem evaluated on concrete inputs —
a root-relative path, an absolute URL under two different bases, and a
protocol-relative URL. -/
theorem resolveUrl_spec_witness :
    resolveUrl none "https://example.com/" = none ∧
    resolveUrl (some "/micropub") "https://example.com/page" =
      some (serializeUrl (rootRelative
        { scheme := "https", host := "example.com", path := ["page"] } "/micropub")) ∧
    resolveUrl (some "https://api.example.com/micropub") "https://a.org/" =
      resolveUrl (some "https://api.example.com/micropub") "https://b.org/" ∧
    (jsNewUrl "//api.example.com/mp" (some "https://example.com/")).map UrlRec.scheme =
      some "https" := by
  have h := resolveUrl_spec
  have hroot := h.2.1 "https://example.com/page" "/micropub"
    { scheme := "https", host := "example.com", path := ["page"] } 'm' "icropub".data
    rfl rfl (by decide)
  have habs := h.2.2.1 "https://api.example.com/micropub"
    { scheme := "https", host := "api.example.com", path := ["micropub"] }
    "https://a.org/" "https://b.org/" rfl
  have hproto := h.2.2.2.2.1 "https://example.com/" "//api.example.com/mp"
    { scheme := "https", host := "example.com", path := [""] } "api.example.com/mp".data
  refine ⟨h.1 _, hroot.2.2.2.2, habs.2, ?_⟩
  have hj : jsNewUrl "//api.example.com/mp" (some "https://example.com/") =
      some { scheme := "https", host := "api.example.com", path := ["mp"] } := rfl
  rw [hj]
  exact congrArg some
    (hproto { scheme := "https", host := "api.example.com", path := ["mp"] } rfl rfl hj)

theorem strStarts_append (p x : String) : strStarts (p ++ x) p = true := by
  simp only [strStarts, String.data_append]
  rw [List.isPrefixOf_iff_prefix]
  exact List.prefix_append _ _

theorem strStarts_append_right {s p : String} (x : String) (h : strStarts s p = true) :
    strStarts (s ++ x) p = true := by
  simp only [strStarts, String.data_append] at h ⊢
  rw [List.isPrefixOf_iff_prefix] at h ⊢
  exact h.trans (List.prefix_append _ _)

/-- C5 counterexample: the trailing-slash step checks `url.split("/").pop()`
for a dot, and for a bare host that last segment IS the host, whose dot
suppresses the slash — so `example.com` (and `https://example.com`) are
fetched as the string `https://example.com`, not `https://example.com/`. -/
theorem normalizeSiteUrl_bare_host :
    normalizeSiteUrl "example.com" = "https://example.com" ∧
    normalizeSiteUrl "https://example.com" = "https://example.com" ∧
    ("https://example.com" : String) ≠ "https://example.com/" :=
  ⟨rfl, rfl, by decide⟩

/-- C5 (amended): `discoverEndpoints` trims the input and prepends `https://`
when it starts with neither `http://` nor `https://`; it then appends a
trailing slash exactly when the scheme-prefixed URL does not already end in
`/`, contains no `?`, and its last `/`-separated segment contains no `.` — a
condition that deliberately skips file-like paths but also skips every bare
dotted host.  The result always carries an `http://` or `https://` scheme. -/
theorem normalizeSiteUrl_spec (websiteUrl : String) :
    (strStarts (jsTrim websiteUrl) "http://" = false →
      strStarts (jsTrim websiteUrl) "https://" = false →
      addSchemeStep (jsTrim websiteUrl) = "https://" ++ jsTrim websiteUrl) ∧
    (wantsSlash (addSchemeStep (jsTrim websiteUrl)) = true →
      normalizeSiteUrl websiteUrl = addSchemeStep (jsTrim websiteUrl) ++ "/") ∧
    (wantsSlash (addSchemeStep (jsTrim websiteUrl)) = false →
      normalizeSiteUrl websiteUrl = addSchemeStep (jsTrim websiteUrl)) ∧
    (strStarts (normalizeSiteUrl websiteUrl) "http://" = true ∨
      strStarts (normalizeSiteUrl websiteUrl) "https://" = true) := by
  refine ⟨fun h1 h2 => ?_, fun h => ?_, fun h => ?_, ?_⟩
  · simp [addSchemeStep, h1, h2]
  · simp [normalizeSiteUrl, h]
  · simp [normalizeSiteUrl, h]
  · have hscheme : strStarts (addSchemeStep (jsTrim websiteUrl)) "http://" = true ∨
        strStarts (addSchemeStep (jsTrim websiteUrl)) "https://" = true := by
      by_cases h1 : strStarts (jsTrim websiteUrl) "http://" = true
      · have he : addSchemeStep (jsTrim websiteUrl) = jsTrim websiteUrl := by
          simp [addSchemeStep, h1]
        rw [he]
        exact Or.inl h1
      · by_cases h2 : strStarts (jsTrim websiteUrl) "https://" = true
        · have he : addSchemeStep (jsTrim websiteUrl) = jsTrim websiteUrl := by
            simp [addSchemeStep, h2]
          rw [he]
          exact Or.inr h2
        · have he : addSchemeStep (jsTrim websiteUrl) = "https://" ++ jsTrim websiteUrl := by
            simp [addSchemeStep, h1, h2]
          rw [he]
          exact Or.inr (strStarts_append _ _)
    simp only [normalizeSiteUrl]
    split
    · rcases hscheme with h | h
      · exact Or.inl (strStarts_append_right _ h)
      · exact Or.inr (strStarts_append_right _ h)
    · exact hscheme

/-- C5 witness: the amended normalization theorem evaluated on a bare host
(scheme prepended), an extensionless path (slash appended), and a file-like
path (no slash). -/
theorem normalizeSiteUrl_spec_witness :
    addSchemeStep (jsTrim "example.com") = "https://" ++ jsTrim "example.com" ∧
    normalizeSiteUrl "https://example.com/about" =
      addSchemeStep (jsTrim "https://example.com/about") ++ "/" ∧
    normalizeSiteUrl "https://example.com/file.html" =
      addSchemeStep (jsTrim "https://example.com/file.html") :=
  ⟨(normalizeSiteUrl_spec "example.com").1 (by decide) (by decide),
   (normalizeSiteUrl_spec "https://example.com/about").2.1 (by decide),
   (normalizeSiteUrl_spec "https://example.com/file.html").2.2.1 (by decide)⟩

/-- C6: on a successful site fetch the result is the Link/HTML endpoints run
through the metadata pass and resolved against the canonical `me`; when a
metadata URL was found and its fetch succeeds, the metadata document's truthy
`authorization_endpoint`/`token_endpoint` fields override the Link/HTML
endpoints (the micropub endpoint is untouched); when the fetch fails — or no
metadata URL was found — the Link/HTML endpoints are kept unchanged. -/
theorem discovery_metadata_precedence (websiteUrl : String) (w : FetchWorld)
    (hok : w.site.ok = true) :
    (discoverEndpoints websiteUrl w = Except.ok
      { me := w.site.url,
        micropubEndpoint := resolveUrl
          (metadataPhase (linkHtmlPhase w.site.linkHeader w.site.htmlBody) w.site.url
            w.metadata).micropubEndpoint w.site.url,
        authorizationEndpoint := resolveUrl
          (metadataPhase (linkHtmlPhase w.site.linkHeader w.site.htmlBody) w.site.url
            w.metadata).authorizationEndpoint w.site.url,
        tokenEndpoint := resolveUrl
          (metadataPhase (linkHtmlPhase w.site.linkHeader w.site.htmlBody) w.site.url
            w.metadata).tokenEndpoint w.site.url }) ∧
    (∀ pre : PreEndpoints, ∀ meta : MetadataDoc, jsTruthy pre.metadataUrl = true →
      w.metadata ((resolveUrl pre.metadataUrl w.site.url).getD "") = some meta →
      (metadataPhase pre w.site.url w.metadata).authorizationEndpoint =
        (if jsTruthy meta.authorization_endpoint then meta.authorization_endpoint
         else pre.authorizationEndpoint) ∧
      (metadataPhase pre w.site.url w.metadata).tokenEndpoint =
        (if jsTruthy meta.token_endpoint then meta.token_endpoint
         else pre.tokenEndpoint) ∧
      (metadataPhase pre w.site.url w.metadata).micropubEndpoint = pre.micropubEndpoint) ∧
    (∀ pre : PreEndpoints, jsTruthy pre.metadataUrl = true →
      w.metadata ((resolveUrl pre.metadataUrl w.site.url).getD "") = none →
      metadataPhase pre w.site.url w.metadata = pre) ∧
    (∀ pre : PreEndpoints, jsTruthy pre.metadataUrl = false →
      metadataPhase pre w.site.url w.metadata = pre) := by
  refine ⟨?_, ?_, ?_, ?_⟩
  · simp [discoverEndpoints, hok]
  · intro pre meta hmu hfetch
    refine ⟨?_, ?_, ?_⟩ <;> simp [metadataPhase, hmu, hfetch]
  · intro pre hmu hfetch
    simp [metadataPhase, hmu, hfetch]
  · intro pre hmu
    simp [metadataPhase, hmu]

set_option maxRecDepth 40000 in
/-- C6 witness: the precedence theorem evaluated on a concrete world — with a
successful metadata fetch the metadata endpoints override the legacy Link
ones; with a failing fetch the legacy endpoints survive into the result. -/
theorem discovery_metadata_precedence_witness :
    discoverEndpoints "example.com" worldMetaOk = Except.ok
      { me := "https://example.com/",
        micropubEndpoint := some "https://example.com/micropub",
        authorizationEndpoint := some "https://auth.example.com/authorize",
        tokenEndpoint := some "https://auth.example.com/token" } ∧
    discoverEndpoints "example.com" worldMetaFail = Except.ok
      { me := "https://example.com/",
        micropubEndpoint := some "https://example.com/micropub",
        authorizationEndpoint := some "https://legacy.example.com/auth",
        tokenEndpoint := some "https://legacy.example.com/token" } :=
  ⟨((discovery_metadata_precedence "example.com" worldMetaOk rfl).1).trans (by rfl),
   ((discovery_metadata_precedence "example.com" worldMetaFail rfl).1).trans (by rfl)⟩

/-- C7 (code bug): `extractHtmlLinkRel`'s regex demands that the `rel`
attribute equal the sought value exactly between the quotes, so a `<link>`
whose rel attribute is the space-separated list `micropub webmention`
satisfies NEITHER a `micropub` nor a `webmention` lookup — contradicting the
repository's own test ("should handle multiple rel values (space-separated)")
and the spec; the attribute-order, quote-style and case tolerance parts of
the claim do hold. -/
theorem extractHtmlLinkRel_multirel :
    extractHtmlLinkRel "<link rel=\"micropub webmention\" href=\"https://example.com/micropub\">"
      "micropub" = none ∧
    extractHtmlLinkRel "<link rel=\"micropub webmention\" href=\"https://example.com/micropub\">"
      "webmention" = none ∧
    extractHtmlLinkRel "<link rel=\"micropub\" href=\"https://example.com/micropub\">"
      "micropub" = some "https://example.com/micropub" ∧
    extractHtmlLinkRel "<link href=\"https://example.com/micropub\" rel=\"micropub\">"
      "micropub" = some "https://example.com/micropub" ∧
    extractHtmlLinkRel "<link rel='micropub' href='https://example.com/micropub'>"
      "micropub" = some "https://example.com/micropub" ∧
    extractHtmlLinkRel "<link rel=\"MICROPUB\" href=\"https://example.com/micropub\">"
      "micropub" = some "https://example.com/micropub" :=
  ⟨rfl, rfl, rfl, rfl, rfl, rfl⟩

theorem callback_found_core (p : CallbackParams) (kv : KVStore) (w : CallbackWorld)
    (hne : jsTruthy p.error = false) (hc : jsTruthy p.code = true)
    (hs : jsTruthy p.state = true) (rec : PendingAuth)
    (hrec : kv ("pending:" ++ p.state.getD "") = some rec) :
    (handleIndieAuthCallback p kv w).2.1 =
      (fun k => if k = "pending:" ++ p.state.getD "" then none else kv k) ∧
    (handleIndieAuthCallback p kv w).2.2.take 2 =
      [CallbackEff.kvGet ("pending:" ++ p.state.getD ""),
       CallbackEff.kvDelete ("pending:" ++ p.state.getD "")] := by
  simp only [handleIndieAuthCallback, hne, hc, hs, hrec]
  simp only [Bool.not_true, Bool.or_self, Bool.false_eq_true, if_false, ite_false]
  rcases hx : w.exchange rec.tokenEndpoint (p.code.getD "") rec.codeVerifier with e | tok
  · simp [List.take]
  · simp only []
    split
    · simp [List.take]
    · split
      · simp [List.take]
      · rcases hca : w.completeAuth rec.storedOAuthReq tok.me _ (splitScope tok.scope)
          with e | rt <;> simp [List.take]

theorem callback_early_core (p : CallbackParams) (kv : KVStore) (w : CallbackWorld)
    (h : jsTruthy p.error = true ∨ jsTruthy p.code = false ∨ jsTruthy p.state = false) :
    (∃ msg, (handleIndieAuthCallback p kv w).1 = CallbackOutcome.errorPage msg) ∧
    (handleIndieAuthCallback p kv w).2.1 = kv ∧
    (handleIndieAuthCallback p kv w).2.2 = [] := by
  by_cases he : jsTruthy p.error = true
  · refine ⟨⟨jsOrS p.errorDescription (p.error.getD ""), ?_⟩, ?_, ?_⟩ <;>
      simp [handleIndieAuthCallback, he]
  · have he' : jsTruthy p.error = false := by
      rcases hb : jsTruthy p.error with _ | _
      · rfl
      · exact absurd hb he
    have hcs : (!jsTruthy p.code || !jsTruthy p.state) = true := by
      rcases h with h | h | h
      · exact absurd h he
      · simp [h]
      · simp [h]
    refine ⟨⟨"Missing authorization code or state", ?_⟩, ?_, ?_⟩ <;>
      simp [handleIndieAuthCallback, he', hcs]

theorem callback_expired_core (p : CallbackParams) (kv : KVStore) (w : CallbackWorld)
    (hne : jsTruthy p.error = false) (hc : jsTruthy p.code = true)
    (hs : jsTruthy p.state = true)
    (hmiss : kv ("pending:" ++ p.state.getD "") = none) :
    handleIndieAuthCallback p kv w =
      (CallbackOutcome.errorPage "Authorization session expired. Please try again.", kv,
        [CallbackEff.kvGet ("pending:" ++ p.state.getD "")]) := by
  simp [handleIndieAuthCallback, hne, hc, hs, hmiss]

/-- C1: when the callback handler finds a pending-authorization record for
the supplied state, the `get` is immediately followed by the `delete` —
before the token exchange or grant completion appears in the effect trace —
and the record is gone from the resulting store; a second callback with the
same state on that store is answered with the session-expired error page,
with a trace consisting of the lookup alone: no token exchange and no grant
completion is re-executed. -/
theorem callback_single_use (p : CallbackParams) (kv : KVStore) (w : CallbackWorld)
    (hne : jsTruthy p.error = false) (hc : jsTruthy p.code = true)
    (hs : jsTruthy p.state = true) (rec : PendingAuth)
    (hrec : kv ("pending:" ++ p.state.getD "") = some rec) :
    (handleIndieAuthCallback p kv w).2.2.take 2 =
      [CallbackEff.kvGet ("pending:" ++ p.state.getD ""),
       CallbackEff.kvDelete ("pending:" ++ p.state.getD "")] ∧
    (handleIndieAuthCallback p kv w).2.1 ("pending:" ++ p.state.getD "") = none ∧
    (handleIndieAuthCallback p (handleIndieAuthCallback p kv w).2.1 w).1 =
      CallbackOutcome.errorPage "Authorization session expired. Please try again." ∧
    (handleIndieAuthCallback p (handleIndieAuthCallback p kv w).2.1 w).2.2 =
      [CallbackEff.kvGet ("pending:" ++ p.state.getD "")] ∧
    (∀ e c, CallbackEff.tokenExchange e c ∉
      (handleIndieAuthCallback p (handleIndieAuthCallback p kv w).2.1 w).2.2) ∧
    (∀ u, CallbackEff.completeAuth u ∉
      (handleIndieAuthCallback p (handleIndieAuthCallback p kv w).2.1 w).2.2) := by
  obtain ⟨hstore, htake⟩ := callback_found_core p kv w hne hc hs rec hrec
  have hmiss : (handleIndieAuthCallback p kv w).2.1 ("pending:" ++ p.state.getD "") = none := by
    rw [hstore]
    simp
  have h2 := callback_expired_core p (handleIndieAuthCallback p kv w).2.1 w hne hc hs hmiss
  refine ⟨htake, hmiss, ?_, ?_, ?_, ?_⟩
  · rw [h2]
  · rw [h2]
  · intro e c
    rw [h2]
    simp
  · intro u
    rw [h2]
    simp

/-- C1 witness: the single-use theorem evaluated on a concrete well-formed
callback against a store holding a record under state `st1`. -/
theorem callback_single_use_witness :
    (handleIndieAuthCallback { code := some "abc", state := some "st1" } kvFixture
      worldFixture).2.2.take 2 =
      [CallbackEff.kvGet "pending:st1", CallbackEff.kvDelete "pending:st1"] ∧
    (handleIndieAuthCallback { code := some "abc", state := some "st1" } kvFixture
      worldFixture).2.1 "pending:st1" = none ∧
    (handleIndieAuthCallback { code := some "abc", state := some "st1" }
      (handleIndieAuthCallback { code := some "abc", state := some "st1" } kvFixture
        worldFixture).2.1 worldFixture).1 =
      CallbackOutcome.errorPage "Authorization session expired. Please try again." := by
  have h := callback_single_use { code := some "abc", state := some "st1" } kvFixture
    worldFixture rfl rfl rfl pendingFixture rfl
  exact ⟨h.1, h.2.1, h.2.2.1⟩

/-- C10: when the callback arrives with an `error` parameter, or with `code`
or `state` missing, the handler renders an error page without reading or
deleting any pending-authorization record — the store is unchanged and the
effect trace is empty — and any record stored under any state is still
consumable: a later well-formed callback for it still finds and consumes it
(its trace begins with the `get` and the `delete` of that record's key). -/
theorem callback_no_touch (p : CallbackParams) (kv : KVStore) (w : CallbackWorld)
    (h : jsTruthy p.error = true ∨ jsTruthy p.code = false ∨ jsTruthy p.state = false) :
    (∃ msg, (handleIndieAuthCallback p kv w).1 = CallbackOutcome.errorPage msg) ∧
    (handleIndieAuthCallback p kv w).2.1 = kv ∧
    (handleIndieAuthCallback p kv w).2.2 = [] ∧
    (∀ p' : CallbackParams, ∀ rec : PendingAuth,
      jsTruthy p'.error = false → jsTruthy p'.code = true → jsTruthy p'.state = true →
      kv ("pending:" ++ p'.state.getD "") = some rec →
      (handleIndieAuthCallback p' (handleIndieAuthCallback p kv w).2.1 w).2.2.take 2 =
        [CallbackEff.kvGet ("pending:" ++ p'.state.getD ""),
         CallbackEff.kvDelete ("pending:" ++ p'.state.getD "")]) := by
  obtain ⟨hmsg, hstore, htrace⟩ := callback_early_core p kv w h
  refine ⟨hmsg, hstore, htrace, ?_⟩
  intro p' rec hne' hc' hs' hrec'
  rw [hstore]
  exact (callback_found_core p' kv w hne' hc' hs' rec hrec').2

/-- C10 witness: the frame theorem evaluated on a concrete error callback
and a concrete missing-parameter callback, against the store holding the
`st1` record, followed by a concrete well-formed callback that still
consumes it. -/
theorem callback_no_touch_witness :
    (handleIndieAuthCallback { error := some "access_denied" } kvFixture worldFixture).2.1 =
      kvFixture ∧
    (handleIndieAuthCallback { error := some "access_denied" } kvFixture worldFixture).2.2 =
      [] ∧
    (handleIndieAuthCallback { code := some "abc" } kvFixture worldFixture).2.2 = [] ∧
    (handleIndieAuthCallback { code := some "abc", state := some "st1" }
      (handleIndieAuthCallback { error := some "access_denied" } kvFixture
        worldFixture).2.1 worldFixture).2.2.take 2 =
      [CallbackEff.kvGet "pending:st1", CallbackEff.kvDelete "pending:st1"] := by
  have h1 := callback_no_touch { error := some "access_denied" } kvFixture worldFixture
    (Or.inl rfl)
  have h2 := callback_no_touch { code := some "abc" } kvFixture worldFixture
    (Or.inr (Or.inr rfl))
  exact ⟨h1.2.1, h1.2.2.1, h2.2.2.1,
    h1.2.2.2 { code := some "abc", state := some "st1" } pendingFixture rfl rfl rfl rfl⟩

end Spec2Proof
